import Mathlib

/-!
# Machinist: verification of the orchestration / execution core

Shallow embedding of the Machinist repository's workflow engine
(`src/machinist/workflow.py`), the registry round-trip surface
(`src/machinist/registry.py`), and the sandbox command construction
(spec §4.3; `machinist/sandbox.py` is not part of the source tree, only
its tests and callers are).

Python dynamic values are embedded as the inductive `Value`; Python
`dict`s become insertion-ordered association lists; Python exceptions
become an explicit `PyErr` sum propagated through `Except`.  Stateful
engine pieces (the memoization cache, plus a ghost trace of calls made
at the executable layer) thread an explicit `EngineState`.
-/

set_option autoImplicit false

namespace Machinist

/-- Python runtime values manipulated by the workflow engine:
strings, booleans, integers, lists, string-keyed dicts and `None`. -/
inductive Value where
  | str (s : String)
  | bool (b : Bool)
  | int (n : Int)
  | list (xs : List Value)
  | dict (kvs : List (String × Value))
  | none
  deriving Repr, BEq

/-- First-match lookup in an association list (Python `d[k]` / `d.get(k)`
on a dict whose insertion order is the list order). -/
def getKey? {α : Type} : List (String × α) → String → Option α
  | [], _ => Option.none
  | (k', v) :: rest, k => if k' = k then some v else getKey? rest k

/-- Python `d[k] = v`: replace the value at an existing key in place,
otherwise append the new pair at the end. -/
def setKey {α : Type} : List (String × α) → String → α → List (String × α)
  | [], k, v => [(k, v)]
  | (k', v') :: rest, k, v =>
      if k' = k then (k, v) :: rest else (k', v') :: setKey rest k v

/-- Characters Python `str.strip()` removes (ASCII whitespace). -/
def isPyWs (c : Char) : Bool :=
  c = ' ' || c = '\t' || c = '\n' || c = '\r' || c = '\x0b' || c = '\x0c'

/-- Python `s.strip()`. -/
def pyStrip (s : String) : String :=
  String.mk (((s.toList.dropWhile isPyWs).reverse.dropWhile isPyWs).reverse)

/-- Python `s.strip(c)` for a single character `c`: drop every leading and
trailing occurrence of `c` (not just one layer). -/
def pyStripChar (c : Char) (s : String) : String :=
  String.mk (((s.toList.dropWhile (· = c)).reverse.dropWhile (· = c)).reverse)

/-- `s.split(sep, 1)` for a nonempty separator, fused with the Python
`sep in s` test: `some (before, after)` at the first occurrence of `sep`,
`none` when `sep` does not occur in `s`. -/
def splitFirstAux (sep : List Char) : List Char → Option (List Char × List Char)
  | [] => Option.none
  | c :: rest =>
      if sep.isPrefixOf (c :: rest) then some ([], (c :: rest).drop sep.length)
      else
        match splitFirstAux sep rest with
        | some (pre, post) => some (c :: pre, post)
        | Option.none => Option.none

def splitFirst (s sep : String) : Option (String × String) :=
  (splitFirstAux sep.toList s.toList).map fun p => (String.mk p.1, String.mk p.2)

/-- Python `repr` for the embedded values (the cases the engine can
produce: quote choice and basic escapes for strings, `True`/`False`,
decimal integers, `None`, and bracketed lists / dicts). -/
def pyReprQuote (q : Char) (s : String) : String :=
  String.mk (q :: (s.toList.flatMap fun c =>
    if c = '\\' then ['\\', '\\']
    else if c = q then ['\\', q]
    else if c = '\n' then ['\\', 'n']
    else if c = '\r' then ['\\', 'r']
    else if c = '\t' then ['\\', 't']
    else [c]) ++ [q])

def pyReprStr (s : String) : String :=
  if s.contains '\'' && !s.contains '"' then pyReprQuote '"' s
  else pyReprQuote '\'' s

mutual

def pyRepr : Value → String
  | .str s => pyReprStr s
  | .bool b => if b then "True" else "False"
  | .int n => toString n
  | .list xs => "[" ++ pyReprList xs ++ "]"
  | .dict kvs => "\x7b" ++ pyReprDict kvs ++ "\x7d"
  | .none => "None"

def pyReprList : List Value → String
  | [] => ""
  | [v] => pyRepr v
  | v :: rest => pyRepr v ++ ", " ++ pyReprList rest

def pyReprDict : List (String × Value) → String
  | [] => ""
  | [(k, v)] => pyReprStr k ++ ": " ++ pyRepr v
  | (k, v) :: rest => pyReprStr k ++ ": " ++ pyRepr v ++ ", " ++ pyReprDict rest

end

/-- Python `str(v)`: identity on strings, `repr` everywhere else. -/
def pyStr : Value → String
  | .str s => s
  | v => pyRepr v

/-- Python `bool(v)` truthiness. -/
def pyTruthy : Value → Bool
  | .str s => s ≠ ""
  | .bool b => b
  | .int n => n ≠ 0
  | .list xs => !xs.isEmpty
  | .dict kvs => !kvs.isEmpty
  | .none => false

/-- Python exceptions that can cross the workflow engine's layers.
`recursionError` stands for the interpreter's recursion limit, which is
the only bound on nested-workflow recursion (spec §4.2 / §9). -/
inductive PyErr where
  | valueError (msg : String)
  | typeError (msg : String)
  | runtimeError (msg : String)
  | recursionError
  deriving Repr, BEq, DecidableEq

/-- A workflow execution context / keyword-argument mapping
(Python `Dict[str, Any]`). -/
abbrev Ctx := List (String × Value)

/-- Python `v is None` for embedded values. -/
def Value.isNone : Value → Bool
  | .none => true
  | _ => false

/-- Python `isinstance(v, list)`. -/
def Value.isList : Value → Bool
  | .list _ => true
  | _ => false

/-- Python `isinstance(v, dict)`. -/
def Value.isDict : Value → Bool
  | .dict _ => true
  | _ => false

/-- Python `s.startswith(pre)` (structurally recursive form). -/
def strStartsWith (s pre : String) : Bool :=
  pre.toList.isPrefixOf s.toList

/-- Python `s[n:]`. -/
def strDrop (s : String) (n : Nat) : String :=
  String.mk (s.toList.drop n)

/-- Python `s.lower()` (the grammar only meets ASCII here). -/
def strToLower (s : String) : String :=
  String.mk (s.toList.map Char.toLower)

/-- `WorkflowEngine._resolve_value` (`workflow.py`).  The `item`
parameter defaults to Python `None`; a loop item that is itself `None`
falls through the `$item` test exactly as in the source. -/
def resolveValue (value : String) (context : Ctx) (item : Value := Value.none) :
    Except PyErr Value :=
  if value = "$item" && !item.isNone then .ok item
  else if strStartsWith value "$" then
    let key := strDrop value 1
    match splitFirst key "." with
    | some (stepId, varName) =>
        match getKey? context stepId with
        | some (Value.dict d) => .ok ((getKey? d varName).getD Value.none)
        | _ => .error (.valueError s!"Could not resolve step '{stepId}' in context.")
    | Option.none => .ok ((getKey? context key).getD Value.none)
  else if strToLower value = "true" then .ok (Value.bool true)
  else if strToLower value = "false" then .ok (Value.bool false)
  else .ok (Value.str (pyStripChar '\'' (pyStripChar '"' value)))

/-- One comparison branch of `_evaluate_condition`: `some b` when the
separator occurs and both resolved sides compare, `none` when the
separator is absent or either side fails to resolve (Python's
`except: pass` fall-through). -/
def tryCompare (condition sep : String) (context : Ctx) (neq : Bool) : Option Bool :=
  match splitFirst condition sep with
  | Option.none => Option.none
  | some (lhs, rhs) =>
      match resolveValue (pyStrip lhs) context, resolveValue (pyStrip rhs) context with
      | .ok l, .ok r =>
          some (cond neq (pyStr l != pyStr r) (pyStr l == pyStr r))
      | _, _ => Option.none

/-- `WorkflowEngine._evaluate_condition` (`workflow.py`).  Total: every
failure path is swallowed and defaults to `false`. -/
def evaluateCondition (condition : String) (context : Ctx) : Bool :=
  if condition = "" then true
  else
    match tryCompare condition "==" context false with
    | some b => b
    | Option.none =>
        match tryCompare condition "!=" context true with
        | some b => b
        | Option.none =>
            match resolveValue condition context with
            | .ok v => pyTruthy v
            | .error _ => false

/-! ## Workflow data model

`machinist/templates.py` is imported by the engine but is not under
`src/`; the record shapes below carry exactly the fields the engine and
`registry.load_cached_spec` read (spec §3). -/

structure StepBinding where
  value : String
  deriving Repr, BEq

structure CompositionStep where
  id : String
  tool_id : String
  bind : List (String × StepBinding) := []
  foreach : Option String := Option.none
  outputs : List (String × String) := []
  if_condition : Option String := Option.none
  then_tool_id : Option String := Option.none
  then_bind : List (String × StepBinding) := []
  deriving Repr, BEq

structure CompositionSpec where
  pipeline_id : String
  description : String := ""
  inputs : List (String × String) := []
  steps : List CompositionStep := []
  global_postconditions : List String := []
  semantic_tags : List String := []
  deriving Repr, BEq

/-- Python truthiness of an `Optional[str]` field (`if step.foreach:`,
`if step.if_condition:`): present and nonempty. -/
def truthyOptStr : Option String → Bool
  | some s => s ≠ ""
  | Option.none => false

/-! ## Registry surface seen by the engine -/

/-- `registry.ToolSpec` (dataclass in `registry.py`). -/
structure ToolSpec where
  name : String
  signature : String := ""
  docstring : String := ""
  inputs : List (String × String) := []
  outputs : List (String × String) := []
  failure_modes : String := ""
  deterministic : Bool := false
  imports : List String := []
  semantic_tags : List String := []
  deriving Repr, BEq

/-- `registry.ToolMetadata` (dataclass in `registry.py`); `Path` fields
are carried as their string form. -/
structure ToolMetadata where
  tool_id : String
  version : String := ""
  created_at : String := ""
  spec : ToolSpec
  source_path : String := ""
  tests_path : String := ""
  test_results_path : String := ""
  dependencies : List (String × String) := []
  security_policy : String := ""
  capability_profile : String := ""
  model : String := ""
  template_id : Option String := Option.none
  deriving Repr, BEq

/-- A registered executable: keyword arguments in, a value out or a
raised exception. -/
abbrev Exe := Ctx → Except PyErr Value

/-- The five `ToolRegistry` operations the workflow engine calls
(`find_workflow_by_id`, `find_by_template_id`, `list_tools`, `load`,
`get_executable`); the filesystem-backed store behind them is opaque to
the engine, so it enters the embedding as this environment record. -/
structure Registry where
  findWorkflowById : String → Option CompositionSpec
  findByTemplateId : String → List String
  listTools : List ToolMetadata
  load : String → Option ToolMetadata
  getExecutable : String → Option Exe

/-- Engine-run state: the memoization dict `self._execution_cache`,
plus a ghost trace recording each call made at the executable layer
(`executable_func(**kwargs)`) as `(tool_id_to_run, kwargs)`. -/
structure EngineState where
  cache : List (String × Value) := []
  invocations : List (String × Ctx) := []

/-- `WorkflowEngine._hash_inputs`: `tool_id` plus the name-sorted JSON
encoding of the stringified parameters.  All keys are strings and all
values are stringified first, so the `json.dumps` fallback `except`
branch is unreachable. -/
def jsonEscape (s : String) : String :=
  String.mk (s.toList.flatMap fun c =>
    if c = '\\' then ['\\', '\\']
    else if c = '"' then ['\\', '"']
    else if c = '\n' then ['\\', 'n']
    else if c = '\r' then ['\\', 'r']
    else if c = '\t' then ['\\', 't']
    else [c])

def jsonQuote (s : String) : String := "\"" ++ jsonEscape s ++ "\""

/-- Stable insertion sort of an association list by key (Python
`sorted(d.items())` on unique keys). -/
def insertByKey {α : Type} (p : String × α) : List (String × α) → List (String × α)
  | [] => [p]
  | q :: rest => if p.1 ≤ q.1 then p :: q :: rest else q :: insertByKey p rest

def sortByKey {α : Type} : List (String × α) → List (String × α)
  | [] => []
  | p :: rest => insertByKey p (sortByKey rest)

def jsonDumpsStrDict (kvs : List (String × String)) : String :=
  "\x7b" ++ String.intercalate ", " (kvs.map fun p => jsonQuote p.1 ++ ": " ++ jsonQuote p.2) ++ "\x7d"

def hashInputs (toolId : String) (inputs : Ctx) : String :=
  toolId ++ ":" ++ jsonDumpsStrDict (sortByKey (inputs.map fun p => (p.1, pyStr p.2)))

/-- Purity test from `_run_step_logic` step 3: the loaded metadata's
`deterministic` flag, or a `"pure"`/`"idempotent"` semantic tag; an
unloadable tool counts as not pure. -/
def isPureTool (reg : Registry) (toolId : String) : Bool :=
  match reg.load toolId with
  | some meta =>
      meta.spec.deterministic || meta.spec.semantic_tags.contains "pure"
        || meta.spec.semantic_tags.contains "idempotent"
  | Option.none => false

/-- Tool resolution from `_run_step_logic` step 2: template/provenance
match first, then exact tool-name fallback over all registered tools. -/
def resolveConcreteTool (reg : Registry) (toolId : String) : List String :=
  let concrete := reg.findByTemplateId toolId
  if concrete.isEmpty then
    (reg.listTools.filter fun t => t.spec.name = toolId).map fun t => t.tool_id
  else concrete

/-- Steps 3-4 of `_run_step_logic`, after a concrete `tool_id_to_run`
has been chosen: memo-cache check, executable lookup, invocation, and
cache write-back for pure tools. -/
def runResolved (reg : Registry) (stepId toolIdToRun : String) (kwargs : Ctx)
    (st : EngineState) : Except PyErr Value × EngineState :=
  let isPure := isPureTool reg toolIdToRun
  let cacheKey := hashInputs toolIdToRun kwargs
  match (if isPure then getKey? st.cache cacheKey else Option.none) with
  | some cached => (.ok cached, st)
  | Option.none =>
      match reg.getExecutable toolIdToRun with
      | Option.none =>
          (.error (.runtimeError
            s!"Step '{stepId}': Could not load executable for tool '{toolIdToRun}'"), st)
      | some exe =>
          let st := { st with invocations := st.invocations ++ [(toolIdToRun, kwargs)] }
          match exe kwargs with
          | .error e => (.error e, st)
          | .ok result =>
              let st := if isPure then { st with cache := setKey st.cache cacheKey result } else st
              (.ok result, st)

/-- `WorkflowEngine._run_step_logic`, parametrized by the recursive
entry `execNested` used for nested workflows (tied to `execute` below
through an explicit fuel argument standing for Python's recursion
limit). -/
def runStepLogicAux (reg : Registry)
    (execNested : CompositionSpec → Ctx → EngineState → Except PyErr Ctx × EngineState)
    (stepId toolId : String) (kwargs : Ctx) (st : EngineState) :
    Except PyErr Value × EngineState :=
  match reg.findWorkflowById toolId with
  | some wf =>
      match execNested wf kwargs st with
      | (.ok ctx, st') => (.ok (Value.dict ctx), st')
      | (.error e, st') => (.error e, st')
  | Option.none =>
      match resolveConcreteTool reg toolId with
      | [] =>
          (.error (.runtimeError
            s!"Step '{stepId}': No registered tool found for template/name '{toolId}'"), st)
      | toolIdToRun :: _ => runResolved reg stepId toolIdToRun kwargs st

/-- Parameter binding for one step (`kwargs[param] = _resolve_value(...)`,
built in `bind` order); a `ResolutionError` propagates. -/
def resolveKwargs (bind : List (String × StepBinding)) (context : Ctx) (item : Value) :
    Except PyErr Ctx :=
  match bind with
  | [] => .ok []
  | (p, b) :: rest => do
      let v ← resolveValue b.value context item
      let tail ← resolveKwargs rest context item
      .ok ((p, v) :: tail)

/-- The `for item in loop_collection` body of `execute`: bind with
`$item`, run step logic, collect results in order; the first exception
aborts the loop. -/
def runForeachAux (reg : Registry)
    (execNested : CompositionSpec → Ctx → EngineState → Except PyErr Ctx × EngineState)
    (stepId toolId : String) (bind : List (String × StepBinding)) (context : Ctx) :
    List Value → List Value → EngineState → Except PyErr (List Value) × EngineState
  | [], acc, st => (.ok acc, st)
  | item :: rest, acc, st =>
      match resolveKwargs bind context item with
      | .error e => (.error e, st)
      | .ok kwargs =>
          match runStepLogicAux reg execNested stepId toolId kwargs st with
          | (.ok r, st') => runForeachAux reg execNested stepId toolId bind context rest (acc ++ [r]) st'
          | (.error e, st') => (.error e, st')

/-- The body of one iteration of the step loop in `execute`, after the
`if_condition` gate has passed. -/
def execStepBody (reg : Registry)
    (execNested : CompositionSpec → Ctx → EngineState → Except PyErr Ctx × EngineState)
    (step : CompositionStep) (context : Ctx) (st : EngineState) :
    Except PyErr Ctx × EngineState :=
  if truthyOptStr step.foreach then
    match resolveValue (step.foreach.getD "") context with
    | .error e => (.error e, st)
    | .ok loopCollection =>
        match loopCollection with
        | Value.list items =>
            match runForeachAux reg execNested step.id step.tool_id step.bind context items [] st with
            | (.ok stepOutputs, st') =>
                match step.outputs with
                | (outputName, _) :: _ =>
                    (.ok (setKey context step.id (Value.dict [(outputName, Value.list stepOutputs)])), st')
                | [] => (.ok context, st')
            | (.error e, st') => (.error e, st')
        | _ =>
            (.error (.typeError
              ("Step '" ++ step.id ++ "': `foreach` value '" ++ step.foreach.getD ""
                ++ "' did not resolve to a list.")), st)
  else
    match resolveKwargs step.bind context Value.none with
    | .error e => (.error e, st)
    | .ok kwargs =>
        match runStepLogicAux reg execNested step.id step.tool_id kwargs st with
        | (.ok result, st') =>
            match step.outputs with
            | (outputName, _) :: _ =>
                (.ok (setKey context step.id (Value.dict [(outputName, result)])), st')
            | [] => (.ok context, st')
        | (.error e, st') => (.error e, st')

/-- One iteration of the step loop: the `if_condition` gate, then the
body.  A skipped step leaves the context and state untouched. -/
def execOneStep (reg : Registry)
    (execNested : CompositionSpec → Ctx → EngineState → Except PyErr Ctx × EngineState)
    (step : CompositionStep) (context : Ctx) (st : EngineState) :
    Except PyErr Ctx × EngineState :=
  if truthyOptStr step.if_condition ∧
      evaluateCondition (step.if_condition.getD "") context = false then
    (.ok context, st)
  else execStepBody reg execNested step context st

/-- The step loop of `WorkflowEngine.execute`: steps strictly in
declared order, the first exception aborting the remainder. -/
def execStepsAux (reg : Registry)
    (execNested : CompositionSpec → Ctx → EngineState → Except PyErr Ctx × EngineState) :
    List CompositionStep → Ctx → EngineState → Except PyErr Ctx × EngineState
  | [], context, st => (.ok context, st)
  | step :: rest, context, st =>
      match execOneStep reg execNested step context st with
      | (.ok context', st') => execStepsAux reg execNested rest context' st'
      | (.error e, st') => (.error e, st')

/-- `WorkflowEngine.execute`: the context starts as a copy of the
inputs and accumulates one entry per executed step.  `fuel` bounds the
nested-workflow recursion (Python's recursion limit; the design itself
has no cycle guard, spec §9). -/
def execute (reg : Registry) : Nat → CompositionSpec → Ctx → EngineState →
    Except PyErr Ctx × EngineState
  | 0, _, _, st => (.error .recursionError, st)
  | fuel + 1, compSpec, inputs, st =>
      execStepsAux reg (execute reg fuel) compSpec.steps inputs st

/-! ## Registry persistence (`register` / `load`, `registry.py`)

`register` writes `metadata.to_json()` (a `json.dumps` with
`sort_keys=True`) under the tool id and `load` re-parses it.
Persistence is embedded at the JSON-value level: the value tree that
`json.loads` recovers from the sorted text — every object's keys in
sorted order — is stored directly, `json.dumps`/`json.loads` being the
standard library's lossless text codec for these trees. -/

inductive Json where
  | null
  | bool (b : Bool)
  | num (n : Int)
  | str (s : String)
  | arr (xs : List Json)
  | obj (kvs : List (String × Json))
  deriving Repr, BEq

/-- A string-valued dict, dumped with sorted keys. -/
def encodeStrDict (kvs : List (String × String)) : Json :=
  .obj ((sortByKey kvs).map fun p => (p.1, Json.str p.2))

/-- `asdict(spec)` as recovered from the sorted dump (field keys in
sorted order). -/
def encodeSpec (s : ToolSpec) : Json :=
  .obj [
    ("deterministic", .bool s.deterministic),
    ("docstring", .str s.docstring),
    ("failure_modes", .str s.failure_modes),
    ("imports", .arr (s.imports.map .str)),
    ("inputs", encodeStrDict s.inputs),
    ("name", .str s.name),
    ("outputs", encodeStrDict s.outputs),
    ("semantic_tags", .arr (s.semantic_tags.map .str)),
    ("signature", .str s.signature)]

/-- `ToolMetadata.to_dict` as recovered from the sorted dump. -/
def encodeMeta (m : ToolMetadata) : Json :=
  .obj [
    ("capability_profile", .str m.capability_profile),
    ("created_at", .str m.created_at),
    ("dependencies", encodeStrDict m.dependencies),
    ("model", .str m.model),
    ("security_policy", .str m.security_policy),
    ("source_path", .str m.source_path),
    ("spec", encodeSpec m.spec),
    ("template_id", match m.template_id with | some t => .str t | Option.none => Json.null),
    ("test_results_path", .str m.test_results_path),
    ("tests_path", .str m.tests_path),
    ("tool_id", .str m.tool_id),
    ("version", .str m.version)]

def decodeStr : Json → Except String String
  | .str s => .ok s
  | _ => .error "expected a string"

def decodeBool : Json → Except String Bool
  | .bool b => .ok b
  | _ => .error "expected a bool"

def decodeStrList : Json → Except String (List String)
  | .arr xs => xs.foldr (fun x acc => do
      let s ← decodeStr x
      let rest ← acc
      .ok (s :: rest)) (.ok [])
  | _ => .error "expected a list"

def decodeStrDictEntries : List (String × Json) → Except String (List (String × String))
  | [] => .ok []
  | (k, v) :: rest => do
      let s ← decodeStr v
      let tail ← decodeStrDictEntries rest
      .ok ((k, s) :: tail)

def decodeStrDict : Json → Except String (List (String × String))
  | .obj kvs => decodeStrDictEntries kvs
  | _ => .error "expected a dict"

/-- `data[k]`: `KeyError` when the key is absent. -/
def reqField (kvs : List (String × Json)) (k : String) : Except String Json :=
  match getKey? kvs k with
  | some v => .ok v
  | Option.none => .error ("KeyError: " ++ k)

/-- `spec_data.setdefault("imports", [])` then `ToolSpec(**spec_data)`:
required dataclass fields must be present, `imports` and
`semantic_tags` fall back to their defaults. -/
def decodeSpec : Json → Except String ToolSpec
  | .obj kvs => do
      let name ← reqField kvs "name" >>= decodeStr
      let signature ← reqField kvs "signature" >>= decodeStr
      let docstring ← reqField kvs "docstring" >>= decodeStr
      let inputs ← reqField kvs "inputs" >>= decodeStrDict
      let outputs ← reqField kvs "outputs" >>= decodeStrDict
      let failure_modes ← reqField kvs "failure_modes" >>= decodeStr
      let deterministic ← reqField kvs "deterministic" >>= decodeBool
      let imports ← match getKey? kvs "imports" with
        | some v => decodeStrList v
        | Option.none => .ok []
      let semantic_tags ← match getKey? kvs "semantic_tags" with
        | some v => decodeStrList v
        | Option.none => .ok []
      .ok { name, signature, docstring, inputs, outputs, failure_modes,
            deterministic, imports, semantic_tags }
  | _ => .error "expected a dict"

/-- The body of `ToolRegistry.load` after the file read: required
fields via `data[...]`, optional fields via `data.get(..., default)`. -/
def decodeMeta : Json → Except String ToolMetadata
  | .obj kvs => do
      let spec ← reqField kvs "spec" >>= decodeSpec
      let tool_id ← reqField kvs "tool_id" >>= decodeStr
      let version ← reqField kvs "version" >>= decodeStr
      let created_at ← reqField kvs "created_at" >>= decodeStr
      let source_path ← reqField kvs "source_path" >>= decodeStr
      let tests_path ← reqField kvs "tests_path" >>= decodeStr
      let test_results_path ← reqField kvs "test_results_path" >>= decodeStr
      let dependencies ← match getKey? kvs "dependencies" with
        | some v => decodeStrDict v
        | Option.none => .ok []
      let security_policy ← match getKey? kvs "security_policy" with
        | some v => decodeStr v
        | Option.none => .ok ""
      let capability_profile ← match getKey? kvs "capability_profile" with
        | some v => decodeStr v
        | Option.none => .ok ""
      let model ← match getKey? kvs "model" with
        | some v => decodeStr v
        | Option.none => .ok ""
      let template_id ← match getKey? kvs "template_id" with
        | some (Json.str t) => .ok (some t)
        | some Json.null => .ok Option.none
        | Option.none => .ok Option.none
        | some _ => .error "template_id: expected a string or null"
      .ok { tool_id, version, created_at, spec, source_path, tests_path,
            test_results_path, dependencies, security_policy,
            capability_profile, model, template_id }
  | _ => .error "expected a dict"

/-- The registry root: one persisted metadata document per tool id. -/
abbrev Store := List (String × Json)

/-- `ToolRegistry.register`: persist keyed by `tool_id`; re-registering
the same id overwrites. -/
def registerStore (store : Store) (m : ToolMetadata) : Store :=
  setKey store m.tool_id (encodeMeta m)

/-- `ToolRegistry.load`: absence for an unregistered id (no raise),
otherwise decode the persisted document. -/
def loadStore (store : Store) (toolId : String) : Except String (Option ToolMetadata) :=
  match getKey? store toolId with
  | Option.none => .ok Option.none
  | some j => (decodeMeta j).map some

/-- A persisted metadata document carrying only the required fields:
all optional fields (`dependencies`, `security_policy`,
`capability_profile`, `model`, `template_id`, and the contract's
`imports` / `semantic_tags`) are absent. -/
def minimalMetaJson : Json :=
  .obj [
    ("created_at", .str "now"),
    ("source_path", .str "generated/f.py"),
    ("spec", .obj [
       ("deterministic", .bool true),
       ("docstring", .str "d"),
       ("failure_modes", .str ""),
       ("inputs", .obj []),
       ("name", .str "f"),
       ("outputs", .obj []),
       ("signature", .str "def f()")]),
    ("test_results_path", .str "generated/fr.json"),
    ("tests_path", .str "generated/ft.py"),
    ("tool_id", .str "id1"),
    ("version", .str "0.1.0")]

/-- What `load` builds from `minimalMetaJson`: every optional field at
its documented default. -/
def minimalMetaW : ToolMetadata :=
  { tool_id := "id1", version := "0.1.0", created_at := "now"
    spec := { name := "f", signature := "def f()", docstring := "d"
              inputs := [], outputs := [], failure_modes := ""
              deterministic := true, imports := [], semantic_tags := [] }
    source_path := "generated/f.py", tests_path := "generated/ft.py"
    test_results_path := "generated/fr.json", dependencies := []
    security_policy := "", capability_profile := "", model := ""
    template_id := Option.none }

/-! ## Sandbox command construction (spec §4.3) -/

/-- Modelled from the spec: `machinist/sandbox.py` (the `SandboxPolicy`
dataclass) is not under `src/`; §4.3 gives a memory limit in MB, a CPU
time limit in whole seconds, and filesystem/network confinement flags
(network disabled unless explicitly allowed). -/
structure SandboxPolicy where
  memory_limit_mb : Nat
  cpu_time_limit_sec : Nat
  allow_network : Bool := false

/-- Modelled from the spec: `machinist/sandbox.py` (`BwrapSandbox`) is
not under `src/`.  Segment (1) of §4.3's argument vector: the
namespace-isolation wrapper (`bwrap`) configured from the confinement
flags — a mostly read-only filesystem view, a writable working
directory, and no network unless allowed. -/
def bwrapSegment (p : SandboxPolicy) (workdir : String) : List String :=
  ["bwrap", "--ro-bind", "/", "/", "--bind", workdir, workdir, "--chdir", workdir]
    ++ (if p.allow_network then [] else ["--unshare-net"]) ++ ["--"]

/-- Modelled from the spec: segment (2) of §4.3's argument vector: the
resource-limiting wrapper (`prlimit`) with the memory cap in bytes
(`memory_limit_mb` × 1024²) and the CPU cap in whole seconds. -/
def prlimitSegment (p : SandboxPolicy) : List String :=
  ["prlimit",
   "--as=" ++ toString (p.memory_limit_mb * 1024 * 1024),
   "--cpu=" ++ toString p.cpu_time_limit_sec]

/-- Modelled from the spec: `BwrapSandbox.run`'s command construction —
the three concatenated segments of §4.3, the caller's original command
and arguments appended last, unchanged. -/
def buildSandboxCommand (p : SandboxPolicy) (workdir : String) (command : List String) :
    List String :=
  bwrapSegment p workdir ++ prlimitSegment p ++ command

/-! ## Spec-words rendering of the literal-stripping rule

For comparison against `_resolve_value`'s final branch only. -/

/-- Modelled from the spec's words: "a string literal, with one layer
of surrounding quote characters stripped if present" — remove exactly
one matching leading/trailing quote pair. -/
def stripOneLayerSpec (s : String) : String :=
  let cs := s.toList
  match cs.head?, cs.getLast? with
  | some c₁, some c₂ =>
      if 2 ≤ cs.length ∧ c₁ = c₂ ∧ (c₁ = '"' ∨ c₁ = '\'') then
        String.mk ((cs.drop 1).dropLast)
      else s
  | _, _ => s

/-! ## Concrete instances used by witnesses and counterexamples -/

/-- A nested-workflow resolver that never fires (no cached
compositions). -/
def execNoneW : CompositionSpec → Ctx → EngineState → Except PyErr Ctx × EngineState :=
  fun _ _ st => (.error .recursionError, st)

def toolPureW : ToolMetadata :=
  { tool_id := "p1", spec := { name := "ptool", deterministic := true } }

def toolImpureW : ToolMetadata :=
  { tool_id := "i1", spec := { name := "itool", deterministic := false } }

def toolBoomW : ToolMetadata :=
  { tool_id := "boom1", spec := { name := "boomtool", deterministic := false } }

/-- A registry with one pure tool (`p1`, echoing its kwargs), one
non-pure tool (`i1`, echoing its kwargs) and one tool whose executable
raises (`boom1`). -/
def regW : Registry :=
  { findWorkflowById := fun _ => Option.none
    findByTemplateId := fun t =>
      if t = "ptmpl" then ["p1"]
      else if t = "itmpl" then ["i1"]
      else if t = "boomtmpl" then ["boom1"]
      else []
    listTools := [toolPureW, toolImpureW, toolBoomW]
    load := fun i =>
      if i = "p1" then some toolPureW
      else if i = "i1" then some toolImpureW
      else if i = "boom1" then some toolBoomW
      else Option.none
    getExecutable := fun i =>
      if i = "p1" then some (fun kw => .ok (Value.dict kw))
      else if i = "i1" then some (fun kw => .ok (Value.dict kw))
      else if i = "boom1" then some (fun _ => .error (.valueError "boom"))
      else Option.none }

def kwW : Ctx := [("x", Value.int 1)]

/-- The engine state after one uncached pure invocation of `p1` on
`kwW`. -/
def st1W : EngineState :=
  (runStepLogicAux regW execNoneW "s1" "ptmpl" kwW {}).2

def stepBoomW : CompositionStep :=
  { id := "step1", tool_id := "boomtmpl", outputs := [("res", "str")] }

/-- A workflow whose single step's tool raises `ValueError("boom")`. -/
def wfBoomW : CompositionSpec :=
  { pipeline_id := "wf_boom", steps := [stepBoomW] }

/-- The engine state after the failed `boom1` invocation. -/
def stBoomW : EngineState := { cache := [], invocations := [("boom1", [])] }

/-- A foreach step iterating `$items`, binding `$item`, running the
non-pure tool. -/
def stepLoopW : CompositionStep :=
  { id := "loop", tool_id := "itmpl", bind := [("msg", ⟨"$item"⟩)],
    foreach := some "$items", outputs := [("out", "list")] }

def itemsCtxW : Ctx := [("items", Value.list [Value.int 1, Value.int 2, Value.int 3])]

def loopResultsW : List Value :=
  [Value.dict [("msg", Value.int 1)], Value.dict [("msg", Value.int 2)],
   Value.dict [("msg", Value.int 3)]]

def loopCtxEW : Ctx := setKey itemsCtxW "loop" (Value.dict [("out", Value.list loopResultsW)])

def loopStEW : EngineState :=
  { cache := []
    invocations := [("i1", [("msg", Value.int 1)]), ("i1", [("msg", Value.int 2)]),
                    ("i1", [("msg", Value.int 3)])] }

/-- A workflow exhibiting both C6 defects: step id `"a"` collides with
an input key, and step `"s2"` declares no outputs. -/
def wfClobberW : CompositionSpec :=
  { pipeline_id := "wf_clobber"
    steps := [
      { id := "a", tool_id := "itmpl", outputs := [("res", "str")] },
      { id := "s2", tool_id := "itmpl", outputs := [] }] }

/-- A one-step workflow over the non-pure tool, used for the context
invariants. -/
def wfOkW : CompositionSpec :=
  { pipeline_id := "ok"
    steps := [{ id := "s1", tool_id := "itmpl", outputs := [("res", "str")] }] }

def ctxOkW : Ctx := [("keep", Value.int 9), ("s1", Value.dict [("res", Value.dict [])])]

def stOkW : EngineState := { cache := [], invocations := [("i1", [])] }

/-! ## Characterization lemmas for the engine -/

section EngineLemmas

variable {reg : Registry}
variable {execN : CompositionSpec → Ctx → EngineState → Except PyErr Ctx × EngineState}

/-- After tool resolution, `_run_step_logic` continues with the chosen
`tool_id_to_run`. -/
theorem runStepLogic_resolved {toolId t : String} {ts : List String}
    (h1 : reg.findWorkflowById toolId = Option.none)
    (h2 : resolveConcreteTool reg toolId = t :: ts)
    (stepId : String) (kwargs : Ctx) (st : EngineState) :
    runStepLogicAux reg execN stepId toolId kwargs st = runResolved reg stepId t kwargs st := by
  simp [runStepLogicAux, h1, h2]

/-- A pure tool with its key already memoized returns the cached value
and leaves the state untouched. -/
theorem runResolved_pure_hit {t : String} {kwargs : Ctx} {st : EngineState} {c : Value}
    (hp : isPureTool reg t = true)
    (hc : getKey? st.cache (hashInputs t kwargs) = some c) (stepId : String) :
    runResolved reg stepId t kwargs st = (.ok c, st) := by
  simp [runResolved, hp, hc]

/-- A pure tool on a cache miss invokes the executable, records the
invocation and writes the result back into the cache. -/
theorem runResolved_pure_miss {t : String} {kwargs : Ctx} {st : EngineState} {exe : Exe}
    (hp : isPureTool reg t = true)
    (hc : getKey? st.cache (hashInputs t kwargs) = Option.none)
    (he : reg.getExecutable t = some exe) (stepId : String) :
    runResolved reg stepId t kwargs st =
      match exe kwargs with
      | .ok result =>
          (.ok result,
            { cache := setKey st.cache (hashInputs t kwargs) result
              invocations := st.invocations ++ [(t, kwargs)] })
      | .error e => (.error e, { st with invocations := st.invocations ++ [(t, kwargs)] }) := by
  simp [runResolved, hp, hc, he]
  cases exe kwargs <;> rfl

/-- A non-pure tool never consults the cache nor writes it: every call
reaches the executable layer. -/
theorem runResolved_nonpure {t : String} {kwargs : Ctx} {st : EngineState} {exe : Exe}
    (hp : isPureTool reg t = false)
    (he : reg.getExecutable t = some exe) (stepId : String) :
    runResolved reg stepId t kwargs st =
      match exe kwargs with
      | .ok result => (.ok result, { st with invocations := st.invocations ++ [(t, kwargs)] })
      | .error e => (.error e, { st with invocations := st.invocations ++ [(t, kwargs)] }) := by
  simp [runResolved, hp, he]
  cases exe kwargs <;> rfl

/-- A step whose present, nonempty condition evaluates false is skipped:
context and state are returned untouched. -/
theorem execOneStep_skip {step : CompositionStep} {ctx : Ctx} {c : String}
    (hc : step.if_condition = some c) (hfalse : evaluateCondition c ctx = false)
    (st : EngineState) :
    execOneStep reg execN step ctx st = (.ok ctx, st) := by
  have hne : c ≠ "" := by
    intro h
    rw [h] at hfalse
    simp [evaluateCondition] at hfalse
  simp [execOneStep, hc, truthyOptStr, hne, hfalse]

/-- The first failing step aborts the whole step loop with its
exception unchanged; the remaining steps are never looked at. -/
theorem execSteps_error {step : CompositionStep} {ctx : Ctx} {st st' : EngineState} {e : PyErr}
    (h : execOneStep reg execN step ctx st = (.error e, st')) (rest : List CompositionStep) :
    execStepsAux reg execN (step :: rest) ctx st = (.error e, st') := by
  simp [execStepsAux, h]

/-- A successful step hands its updated context to the remaining steps. -/
theorem execSteps_ok {step : CompositionStep} {ctx ctx' : Ctx} {st st' : EngineState}
    (h : execOneStep reg execN step ctx st = (.ok ctx', st')) (rest : List CompositionStep) :
    execStepsAux reg execN (step :: rest) ctx st = execStepsAux reg execN rest ctx' st' := by
  simp [execStepsAux, h]

end EngineLemmas

/-! ## Association-list and codec lemmas -/

@[simp] theorem getKey_setKey_same {α : Type} (l : List (String × α)) (k : String) (v : α) :
    getKey? (setKey l k v) k = some v := by
  induction l with
  | nil => simp [setKey, getKey?]
  | cons p rest ih =>
      by_cases h : p.1 = k
      · simp [setKey, getKey?, h]
      · simp [setKey, getKey?, h, ih]

@[simp] theorem getKey_setKey_other {α : Type} (l : List (String × α)) (k k' : String) (v : α)
    (hne : k' ≠ k) : getKey? (setKey l k v) k' = getKey? l k' := by
  induction l with
  | nil => simp [setKey, getKey?, Ne.symm hne]
  | cons p rest ih =>
      obtain ⟨pk, pv⟩ := p
      by_cases h : pk = k
      · subst h
        simp [setKey, getKey?, Ne.symm hne]
      · by_cases h' : pk = k'
        · simp [setKey, getKey?, h, h', hne]
        · simp [setKey, getKey?, h, h', ih]

theorem getKey_insertByKey {α : Type} (p : String × α) (l : List (String × α)) (k : String) :
    getKey? (insertByKey p l) k = getKey? (p :: l) k := by
  obtain ⟨pk, pv⟩ := p
  induction l with
  | nil => rfl
  | cons q rest ih =>
      obtain ⟨qk, qv⟩ := q
      by_cases hle : pk ≤ qk
      · simp only [insertByKey, if_pos hle]
      · simp only [insertByKey, if_neg hle, getKey?, ih]
        split_ifs with h1 h2 <;> try rfl
        exact absurd (le_of_eq (h2.trans h1.symm)) hle

/-- The stable key-sort behind `sorted(d.items())` does not change any
lookup. -/
theorem getKey_sortByKey {α : Type} (l : List (String × α)) (k : String) :
    getKey? (sortByKey l) k = getKey? l k := by
  induction l with
  | nil => rfl
  | cons p rest ih =>
      obtain ⟨pk, pv⟩ := p
      rw [sortByKey, getKey_insertByKey]
      by_cases hpk : pk = k
      · simp [getKey?, hpk]
      · simp [getKey?, hpk, ih]

theorem decodeStrList_map (l : List String) :
    decodeStrList (Json.arr (l.map Json.str)) = .ok l := by
  induction l with
  | nil => rfl
  | cons s rest ih =>
      simp only [decodeStrList, List.map_cons, List.foldr_cons] at ih ⊢
      rw [ih]
      rfl

theorem decodeStrDictEntries_map (l : List (String × String)) :
    decodeStrDictEntries (l.map fun p => (p.1, Json.str p.2)) = .ok l := by
  induction l with
  | nil => rfl
  | cons p rest ih =>
      obtain ⟨pk, pv⟩ := p
      simp only [List.map_cons, decodeStrDictEntries, decodeStr, ih]
      rfl

theorem decodeStrDict_encode (l : List (String × String)) :
    decodeStrDict (encodeStrDict l) = .ok (sortByKey l) := by
  simp [encodeStrDict, decodeStrDict, decodeStrDictEntries_map]

/-- Decoding an encoded contract recovers every field, the dynamic
dicts in sorted key order. -/
theorem decodeSpec_encodeSpec (s : ToolSpec) :
    decodeSpec (encodeSpec s) =
      .ok { s with inputs := sortByKey s.inputs, outputs := sortByKey s.outputs } := by
  simp [encodeSpec, decodeSpec, reqField, getKey?, decodeStr, decodeBool,
    decodeStrDict_encode, decodeStrList_map, Bind.bind, Except.bind]

/-- Decoding an encoded metadata document recovers every field, the
dynamic dicts in sorted key order. -/
theorem decodeMeta_encodeMeta (m : ToolMetadata) :
    decodeMeta (encodeMeta m) =
      .ok { m with
            dependencies := sortByKey m.dependencies
            spec := { m.spec with
                      inputs := sortByKey m.spec.inputs
                      outputs := sortByKey m.spec.outputs } } := by
  cases htid : m.template_id with
  | none =>
      simp [encodeMeta, decodeMeta, reqField, getKey?, decodeStr,
        decodeStrDict_encode, decodeSpec_encodeSpec, htid, Bind.bind, Except.bind]
  | some t =>
      simp [encodeMeta, decodeMeta, reqField, getKey?, decodeStr,
        decodeStrDict_encode, decodeSpec_encodeSpec, htid, Bind.bind, Except.bind]

/-! ## Foreach and step-shape lemmas -/

section ForeachLemmas

variable {reg : Registry}
variable {execN : CompositionSpec → Ctx → EngineState → Except PyErr Ctx × EngineState}

/-- A completed foreach loop collected exactly one result per item. -/
theorem runForeach_length {stepId toolId : String} {bind : List (String × StepBinding)}
    {ctx : Ctx} :
    ∀ (items : List Value) (acc res : List Value) (st st' : EngineState),
    runForeachAux reg execN stepId toolId bind ctx items acc st = (.ok res, st') →
    res.length = acc.length + items.length := by
  intro items
  induction items with
  | nil =>
      intro acc res st st' h
      simp only [runForeachAux] at h
      cases h
      simp
  | cons item rest ih =>
      intro acc res st st' h
      simp only [runForeachAux] at h
      split at h
      · simp at h
      · split at h
        · have := ih (acc ++ [_]) res _ st' h
          simp at this
          simp [this]
          omega
        · simp at h

/-- With a non-pure tool whose executable succeeds on every bound item,
the loop invokes the executable exactly once per item, in list order,
and collects the results in input order. -/
theorem runForeach_exact {stepId toolId t : String} {ts : List String}
    {bind : List (String × StepBinding)} {ctx : Ctx} {exe : Exe}
    {κ : Value → Ctx} {ρ : Value → Value}
    (h1 : reg.findWorkflowById toolId = Option.none)
    (h2 : resolveConcreteTool reg toolId = t :: ts)
    (hp : isPureTool reg t = false)
    (he : reg.getExecutable t = some exe) :
    ∀ (items : List Value),
    (∀ item ∈ items, resolveKwargs bind ctx item = .ok (κ item)) →
    (∀ item ∈ items, exe (κ item) = .ok (ρ item)) →
    ∀ (acc : List Value) (st : EngineState),
    runForeachAux reg execN stepId toolId bind ctx items acc st =
      (.ok (acc ++ items.map ρ),
       { st with invocations := st.invocations ++ items.map fun i => (t, κ i) }) := by
  intro items
  induction items with
  | nil => intro _ _ acc st; simp [runForeachAux]
  | cons item rest ih =>
      intro hκ hρ acc st
      have hki : resolveKwargs bind ctx item = .ok (κ item) := hκ item (by simp)
      have hri : exe (κ item) = .ok (ρ item) := hρ item (by simp)
      have hrun : runStepLogicAux reg execN stepId toolId (κ item) st =
          (.ok (ρ item), { st with invocations := st.invocations ++ [(t, κ item)] }) := by
        rw [runStepLogic_resolved h1 h2, runResolved_nonpure hp he, hri]
      simp only [runForeachAux, hki, hrun]
      rw [ih (fun i hi => hκ i (by simp [hi])) (fun i hi => hρ i (by simp [hi]))]
      simp

end ForeachLemmas

section ShapeLemmas

variable {reg : Registry}
variable {execN : CompositionSpec → Ctx → EngineState → Except PyErr Ctx × EngineState}

/-- A step that completes normally either leaves the context unchanged
(skipped, or no declared outputs) or writes exactly one entry, keyed by
its id, holding a one-field mapping under its first declared output
name. -/
theorem execOneStep_ok_shape {step : CompositionStep} {ctx ctx' : Ctx} {st st' : EngineState}
    (h : execOneStep reg execN step ctx st = (.ok ctx', st')) :
    ctx' = ctx ∨ ∃ out outT outRest v, step.outputs = (out, outT) :: outRest ∧
      ctx' = setKey ctx step.id (Value.dict [(out, v)]) := by
  unfold execOneStep at h
  split at h
  · cases h
    exact Or.inl rfl
  · unfold execStepBody at h
    split at h
    · split at h
      · simp at h
      · split at h
        · split at h
          · split at h
            · cases h
              exact Or.inr ⟨_, _, _, _, by assumption, rfl⟩
            · cases h
              exact Or.inl rfl
          · simp at h
        · simp at h
    · split at h
      · simp at h
      · split at h
        · split at h
          · cases h
            exact Or.inr ⟨_, _, _, _, by assumption, rfl⟩
          · cases h
            exact Or.inl rfl
        · simp at h

/-- Keys that are not step ids of the remaining steps survive the step
loop unchanged. -/
theorem execSteps_preserves {steps : List CompositionStep} :
    ∀ {ctx ctx' : Ctx} {st st' : EngineState},
    execStepsAux reg execN steps ctx st = (.ok ctx', st') →
    ∀ k, k ∉ steps.map (fun s => s.id) → getKey? ctx' k = getKey? ctx k := by
  induction steps with
  | nil =>
      intro ctx ctx' st st' h k _
      cases h
      rfl
  | cons s rest ih =>
      intro ctx ctx' st st' h k hk
      simp only [List.map_cons, List.mem_cons, not_or] at hk
      obtain ⟨hk1, hk2⟩ := hk
      simp only [execStepsAux] at h
      split at h
      · have hrest := ih h k (by simpa using hk2)
        rw [hrest]
        rcases execOneStep_ok_shape (by assumption) with hsame | ⟨out, outT, outRest, v, _, hset⟩
        · rw [hsame]
        · rw [hset, getKey_setKey_other _ _ _ _ hk1]
      · simp at h

/-- Every key at which the final context differs from the incoming one
was written by some step with declared outputs, and holds a one-field
mapping under that step's first declared output name. -/
theorem execSteps_changed {steps : List CompositionStep} :
    ∀ {ctx ctx' : Ctx} {st st' : EngineState},
    execStepsAux reg execN steps ctx st = (.ok ctx', st') →
    ∀ k, getKey? ctx' k = getKey? ctx k ∨
      ∃ step, step ∈ steps ∧ step.id = k ∧
        ∃ out outT outRest v, step.outputs = (out, outT) :: outRest ∧
          getKey? ctx' k = some (Value.dict [(out, v)]) := by
  induction steps with
  | nil =>
      intro ctx ctx' st st' h k
      cases h
      exact Or.inl rfl
  | cons s rest ih =>
      intro ctx ctx' st st' h k
      simp only [execStepsAux] at h
      split at h
      · rcases ih h k with hsame | ⟨step, hmem, hid, out, outT, outRest, v, hout, hlook⟩
        · rcases execOneStep_ok_shape (by assumption) with hc | ⟨out, outT, outRest, v, hout, hset⟩
          · rw [hsame, hc]
            exact Or.inl rfl
          · by_cases hk : s.id = k
            · refine Or.inr ⟨s, by simp, hk, out, outT, outRest, v, hout, ?_⟩
              rw [hsame, hset, hk]
              exact getKey_setKey_same _ _ _
            · rw [hsame, hset, getKey_setKey_other _ _ _ _ (fun h' => hk h'.symm)]
              exact Or.inl rfl
        · exact Or.inr ⟨step, by simp [hmem], hid, out, outT, outRest, v, hout, hlook⟩
      · simp at h

end ShapeLemmas

/-! ## Claim theorems -/

/-- C1: within one engine run, a step resolving to a pure tool
(`deterministic`, or tagged `pure`/`idempotent`) with an equal
memoization key (`tool_id` plus the name-sorted string encoding of the
resolved parameters) invokes the executable at most once across two
executions, the second returning the previously computed result with
the state untouched; a non-pure tool reaches the executable layer on
every execution, identical parameters notwithstanding. -/
theorem pure_tool_memoized_once :
    (∀ (reg : Registry)
       (execN : CompositionSpec → Ctx → EngineState → Except PyErr Ctx × EngineState)
       (stepIdA stepIdB toolIdA toolIdB : String) (kwargsA kwargsB : Ctx)
       (st stA : EngineState) (t : String) (tsA tsB : List String) (r : Value),
       reg.findWorkflowById toolIdA = Option.none →
       reg.findWorkflowById toolIdB = Option.none →
       resolveConcreteTool reg toolIdA = t :: tsA →
       resolveConcreteTool reg toolIdB = t :: tsB →
       isPureTool reg t = true →
       hashInputs t kwargsA = hashInputs t kwargsB →
       runStepLogicAux reg execN stepIdA toolIdA kwargsA st = (.ok r, stA) →
       runStepLogicAux reg execN stepIdB toolIdB kwargsB stA = (.ok r, stA) ∧
         stA.invocations.length ≤ st.invocations.length + 1) ∧
    (∀ (reg : Registry)
       (execN : CompositionSpec → Ctx → EngineState → Except PyErr Ctx × EngineState)
       (stepId toolId : String) (kwargs : Ctx) (st : EngineState)
       (t : String) (ts : List String) (exe : Exe),
       reg.findWorkflowById toolId = Option.none →
       resolveConcreteTool reg toolId = t :: ts →
       isPureTool reg t = false →
       reg.getExecutable t = some exe →
       (runStepLogicAux reg execN stepId toolId kwargs st).2.invocations
         = st.invocations ++ [(t, kwargs)]) := by
  constructor
  · intro reg execN stepIdA stepIdB toolIdA toolIdB kwargsA kwargsB st stA t tsA tsB r
      h1 h2 h3 h4 hp hkey h7
    rw [runStepLogic_resolved h1 h3] at h7
    rw [runStepLogic_resolved h2 h4]
    cases hc : getKey? st.cache (hashInputs t kwargsA) with
    | some c =>
        rw [runResolved_pure_hit hp hc] at h7
        injection h7 with ha hb
        injection ha with hr
        subst hr
        subst hb
        rw [runResolved_pure_hit hp (hkey ▸ hc)]
        exact ⟨rfl, Nat.le_succ _⟩
    | none =>
        cases he : reg.getExecutable t with
        | none => simp [runResolved, hp, hc, he] at h7
        | some exe =>
            rw [runResolved_pure_miss hp hc he] at h7
            cases hex : exe kwargsA with
            | error e => rw [hex] at h7; simp at h7
            | ok result =>
                rw [hex] at h7
                injection h7 with ha hb
                injection ha with hr
                subst hr
                subst hb
                constructor
                · have hc2 : getKey? (setKey st.cache (hashInputs t kwargsA) result)
                      (hashInputs t kwargsB) = some result := by
                    rw [← hkey]
                    exact getKey_setKey_same _ _ _
                  rw [runResolved_pure_hit hp hc2]
                · simp
  · intro reg execN stepId toolId kwargs st t ts exe h1 h2 hp he
    rw [runStepLogic_resolved h1 h2, runResolved_nonpure hp he]
    cases exe kwargs <;> simp

/-- Witness for C1: the pure tool `p1` called twice on equal keys hits
the cache the second time; the non-pure tool `i1` is invoked again. -/
theorem pure_tool_memoized_once_witness :
    (runStepLogicAux regW execNoneW "s2" "ptmpl" kwW st1W = (.ok (Value.dict kwW), st1W) ∧
      st1W.invocations.length ≤ ({} : EngineState).invocations.length + 1) ∧
    (runStepLogicAux regW execNoneW "s3" "itmpl" kwW st1W).2.invocations
      = st1W.invocations ++ [("i1", kwW)] :=
  ⟨pure_tool_memoized_once.1 regW execNoneW "s1" "s2" "ptmpl" "ptmpl" kwW kwW {} st1W
      "p1" [] [] (Value.dict kwW) rfl rfl rfl rfl rfl rfl rfl,
   pure_tool_memoized_once.2 regW execNoneW "s3" "itmpl" kwW st1W "i1" [] _ rfl rfl rfl rfl⟩

/-- C10: the memoization key stringifies parameter values, so the
distinct mappings `x ↦ 1` (an int) and `x ↦ "1"` (a string) share one
key; the pure tool's second execution returns the cached result of the
first mapping with no further executable invocation. -/
theorem hash_key_stringification_collision :
    hashInputs "p1" [("x", Value.int 1)] = hashInputs "p1" [("x", Value.str "1")] ∧
    Value.int 1 ≠ Value.str "1" ∧
    runStepLogicAux regW execNoneW "s1" "ptmpl" [("x", Value.int 1)] {} =
      (.ok (Value.dict [("x", Value.int 1)]), st1W) ∧
    runStepLogicAux regW execNoneW "s2" "ptmpl" [("x", Value.str "1")] st1W =
      (.ok (Value.dict [("x", Value.int 1)]), st1W) :=
  ⟨rfl, fun h => Value.noConfusion h, rfl, rfl⟩

/-- C2 counterexample: the tool behind `step1` raises
`ValueError("boom")`; the exception reaching the top-level caller is
that very exception, and its message does not mention `step1` — the
step id is only printed to the log, not attached to the exception. -/
theorem workflow_error_annotation_counterexample :
    (execute regW 1 wfBoomW [] {}).1 = .error (.valueError "boom") ∧
    splitFirst "boom" "step1" = Option.none :=
  ⟨rfl, rfl⟩

/-- C2 (amended): any exception raised while running step logic aborts
the workflow immediately — the remaining steps never run and nothing is
retried — and propagates to the caller unchanged; engine-detected
failures (here: no tool resolved) carry the failing step id in their
message, but an exception raised by the tool's executable itself
propagates without any step-id annotation. -/
theorem step_exception_aborts_unchanged :
    (∀ (reg : Registry)
       (execN : CompositionSpec → Ctx → EngineState → Except PyErr Ctx × EngineState)
       (step : CompositionStep) (rest : List CompositionStep) (ctx : Ctx)
       (st : EngineState) (e : PyErr) (stE : EngineState),
       execOneStep reg execN step ctx st = (.error e, stE) →
       execStepsAux reg execN (step :: rest) ctx st = (.error e, stE)) ∧
    (∀ (reg : Registry)
       (execN : CompositionSpec → Ctx → EngineState → Except PyErr Ctx × EngineState)
       (stepId toolId : String) (kwargs : Ctx) (st : EngineState)
       (t : String) (ts : List String) (exe : Exe) (e : PyErr),
       reg.findWorkflowById toolId = Option.none →
       resolveConcreteTool reg toolId = t :: ts →
       (isPureTool reg t = false ∨ getKey? st.cache (hashInputs t kwargs) = Option.none) →
       reg.getExecutable t = some exe →
       exe kwargs = .error e →
       runStepLogicAux reg execN stepId toolId kwargs st =
         (.error e, { st with invocations := st.invocations ++ [(t, kwargs)] })) ∧
    (∀ (reg : Registry)
       (execN : CompositionSpec → Ctx → EngineState → Except PyErr Ctx × EngineState)
       (stepId toolId : String) (kwargs : Ctx) (st : EngineState),
       reg.findWorkflowById toolId = Option.none →
       resolveConcreteTool reg toolId = [] →
       runStepLogicAux reg execN stepId toolId kwargs st =
         (.error (.runtimeError
           s!"Step '{stepId}': No registered tool found for template/name '{toolId}'"), st)) := by
  refine ⟨?_, ?_, ?_⟩
  · intro reg execN step rest ctx st e stE h
    exact execSteps_error h rest
  · intro reg execN stepId toolId kwargs st t ts exe e h1 h2 h3 he hex
    rw [runStepLogic_resolved h1 h2]
    rcases h3 with hp | hc
    · rw [runResolved_nonpure hp he, hex]
    · by_cases hp : isPureTool reg t = true
      · rw [runResolved_pure_miss hp hc he, hex]
      · rw [runResolved_nonpure (by simpa using hp) he, hex]
  · intro reg execN stepId toolId kwargs st h1 h2
    simp [runStepLogicAux, h1, h2]

/-- Witness for the amended C2: the abort, the unchanged tool
exception, and the step-id-carrying engine error, each at a concrete
input. -/
theorem step_exception_aborts_unchanged_witness :
    execStepsAux regW execNoneW (stepBoomW :: [stepBoomW]) [] {} =
      (.error (.valueError "boom"), stBoomW) ∧
    runStepLogicAux regW execNoneW "s1" "boomtmpl" [] {} =
      (.error (.valueError "boom"), stBoomW) ∧
    runStepLogicAux regW execNoneW "s9" "nope" [] {} =
      (.error (.runtimeError "Step 's9': No registered tool found for template/name 'nope'"), {}) :=
  ⟨step_exception_aborts_unchanged.1 regW execNoneW stepBoomW [stepBoomW] [] {}
      (.valueError "boom") stBoomW rfl,
   step_exception_aborts_unchanged.2.1 regW execNoneW "s1" "boomtmpl" [] {} "boom1" [] _
      (.valueError "boom") rfl rfl (Or.inl rfl) rfl rfl,
   step_exception_aborts_unchanged.2.2 regW execNoneW "s9" "nope" [] {} rfl rfl⟩

/-- C3: a foreach whose resolved target is not a list aborts the whole
workflow with a type-mismatch error; otherwise the step logic runs
exactly once per item in list order (for a non-pure tool, exactly one
executable invocation per item, recorded in order) and exactly one
context entry is stored under the step id, holding the ordered results
under the step's first declared output name. -/
theorem foreach_runs_once_per_item :
    (∀ (reg : Registry)
       (execN : CompositionSpec → Ctx → EngineState → Except PyErr Ctx × EngineState)
       (step : CompositionStep) (rest : List CompositionStep) (ctx : Ctx)
       (st : EngineState) (f : String) (v : Value),
       (truthyOptStr step.if_condition = false ∨
         evaluateCondition (step.if_condition.getD "") ctx = true) →
       step.foreach = some f → f ≠ "" →
       resolveValue f ctx = .ok v → v.isList = false →
       execStepsAux reg execN (step :: rest) ctx st =
         (.error (.typeError
           s!"Step '{step.id}': `foreach` value '{f}' did not resolve to a list."), st)) ∧
    (∀ (reg : Registry)
       (execN : CompositionSpec → Ctx → EngineState → Except PyErr Ctx × EngineState)
       (step : CompositionStep) (rest : List CompositionStep) (ctx : Ctx)
       (st : EngineState) (f : String) (items : List Value) (t : String)
       (ts : List String) (exe : Exe) (κ : Value → Ctx) (ρ : Value → Value)
       (out₀ outT : String) (outRest : List (String × String)),
       (truthyOptStr step.if_condition = false ∨
         evaluateCondition (step.if_condition.getD "") ctx = true) →
       step.foreach = some f → f ≠ "" →
       resolveValue f ctx = .ok (Value.list items) →
       reg.findWorkflowById step.tool_id = Option.none →
       resolveConcreteTool reg step.tool_id = t :: ts →
       isPureTool reg t = false →
       reg.getExecutable t = some exe →
       (∀ item ∈ items, resolveKwargs step.bind ctx item = .ok (κ item)) →
       (∀ item ∈ items, exe (κ item) = .ok (ρ item)) →
       step.outputs = (out₀, outT) :: outRest →
       execStepsAux reg execN (step :: rest) ctx st =
         execStepsAux reg execN rest
           (setKey ctx step.id (Value.dict [(out₀, Value.list (items.map ρ))]))
           { st with invocations := st.invocations ++ items.map fun i => (t, κ i) }) ∧
    (∀ (reg : Registry)
       (execN : CompositionSpec → Ctx → EngineState → Except PyErr Ctx × EngineState)
       (step : CompositionStep) (ctx ctxE : Ctx) (st stE : EngineState)
       (f : String) (items : List Value) (out₀ outT : String)
       (outRest : List (String × String)),
       (truthyOptStr step.if_condition = false ∨
         evaluateCondition (step.if_condition.getD "") ctx = true) →
       step.foreach = some f → f ≠ "" →
       resolveValue f ctx = .ok (Value.list items) →
       step.outputs = (out₀, outT) :: outRest →
       execOneStep reg execN step ctx st = (.ok ctxE, stE) →
       ∃ rs : List Value, rs.length = items.length ∧
         ctxE = setKey ctx step.id (Value.dict [(out₀, Value.list rs)])) := by
  have hskip : ∀ (step : CompositionStep) (ctx : Ctx),
      (truthyOptStr step.if_condition = false ∨
        evaluateCondition (step.if_condition.getD "") ctx = true) →
      ¬(truthyOptStr step.if_condition = true ∧
        evaluateCondition (step.if_condition.getD "") ctx = false) := by
    intro step ctx hgate h
    rcases hgate with hg | hg
    · rw [hg] at h
      exact Bool.noConfusion h.1
    · rw [hg] at h
      exact Bool.noConfusion h.2
  refine ⟨?_, ?_, ?_⟩
  · intro reg execN step rest ctx st f v hgate hf hne hres hnl
    have hone : execOneStep reg execN step ctx st =
        (.error (.typeError
          s!"Step '{step.id}': `foreach` value '{f}' did not resolve to a list."), st) := by
      unfold execOneStep
      rw [if_neg (hskip step ctx hgate)]
      unfold execStepBody
      have htf : truthyOptStr step.foreach = true := by simp [hf, truthyOptStr, hne]
      rw [if_pos htf, hf]
      simp only [Option.getD_some]
      rw [hres]
      cases v with
      | list xs => simp [Value.isList] at hnl
      | str s => rfl
      | bool b => rfl
      | int n => rfl
      | dict kvs => rfl
      | none => rfl
    exact execSteps_error hone rest
  · intro reg execN step rest ctx st f items t ts exe κ ρ out₀ outT outRest
      hgate hf hne hres h1 h2 hp he hκ hρ hout
    have hone : execOneStep reg execN step ctx st =
        (.ok (setKey ctx step.id (Value.dict [(out₀, Value.list (items.map ρ))])),
         { st with invocations := st.invocations ++ items.map fun i => (t, κ i) }) := by
      unfold execOneStep
      rw [if_neg (hskip step ctx hgate)]
      unfold execStepBody
      have htf : truthyOptStr step.foreach = true := by simp [hf, truthyOptStr, hne]
      rw [if_pos htf, hf]
      simp only [Option.getD_some, hres]
      rw [runForeach_exact h1 h2 hp he items hκ hρ [] st]
      simp only [hout]
      simp
    exact execSteps_ok hone rest
  · intro reg execN step ctx ctxE st stE f items out₀ outT outRest
      hgate hf hne hres hout hexec
    unfold execOneStep at hexec
    rw [if_neg (hskip step ctx hgate)] at hexec
    unfold execStepBody at hexec
    have htf : truthyOptStr step.foreach = true := by simp [hf, truthyOptStr, hne]
    rw [if_pos htf, hf] at hexec
    simp only [Option.getD_some, hres] at hexec
    cases hrun : runForeachAux reg execN step.id step.tool_id step.bind ctx items [] st with
    | mk res stR =>
        rw [hrun] at hexec
        cases res with
        | ok souts =>
            simp only [hout] at hexec
            injection hexec with ha hb
            injection ha with hctx
            refine ⟨souts, ?_, hctx.symm⟩
            simpa using runForeach_length items [] souts st stR hrun
        | error e => simp at hexec

/-- Witness for C3: iterating a 3-element list with the non-pure tool
`i1` yields one entry holding the 3 ordered results and 3 recorded
invocations; a foreach target resolving to an int aborts; the general
shape clause at the same concrete run. -/
theorem foreach_runs_once_per_item_witness :
    execStepsAux regW execNoneW (stepLoopW :: []) itemsCtxW {} =
      execStepsAux regW execNoneW []
        (setKey itemsCtxW "loop"
          (Value.dict [("out", Value.list ([Value.int 1, Value.int 2, Value.int 3].map
            fun i => Value.dict [("msg", i)]))]))
        { ({} : EngineState) with
          invocations := ({} : EngineState).invocations ++
            [Value.int 1, Value.int 2, Value.int 3].map fun i => ("i1", [("msg", i)]) } ∧
    execStepsAux regW execNoneW (stepLoopW :: []) [("items", Value.int 7)] {} =
      (.error (.typeError
        "Step 'loop': `foreach` value '$items' did not resolve to a list."), {}) ∧
    (∃ rs : List Value,
      rs.length = ([Value.int 1, Value.int 2, Value.int 3] : List Value).length ∧
      loopCtxEW = setKey itemsCtxW "loop" (Value.dict [("out", Value.list rs)])) :=
  ⟨foreach_runs_once_per_item.2.1 regW execNoneW stepLoopW [] itemsCtxW {} "$items"
      [Value.int 1, Value.int 2, Value.int 3] "i1" [] _
      (fun i => [("msg", i)]) (fun i => Value.dict [("msg", i)]) "out" "list" []
      (Or.inl rfl) rfl (by decide) rfl rfl rfl rfl rfl
      (by intro i hi; fin_cases hi <;> rfl)
      (by intro i hi; fin_cases hi <;> rfl) rfl,
   foreach_runs_once_per_item.1 regW execNoneW stepLoopW [] [("items", Value.int 7)] {}
      "$items" (Value.int 7) (Or.inl rfl) rfl (by decide) rfl rfl,
   foreach_runs_once_per_item.2.2 regW execNoneW stepLoopW itemsCtxW loopCtxEW {} loopStEW
      "$items" [Value.int 1, Value.int 2, Value.int 3] "out" "list" []
      (Or.inl rfl) rfl (by decide) rfl rfl rfl⟩

/-- C4: an absent or empty condition gates nothing; a condition with
`==` (or, failing that, `!=`) is split once at the first occurrence,
both sides resolved through the grammar and compared as strings, a
resolution failure skipping that comparison branch; and evaluation
never raises — an unresolvable condition evaluates to false, the step
is skipped with context and state untouched, and the workflow is never
aborted by condition evaluation. -/
theorem condition_evaluation_total :
    (∀ ctx : Ctx, evaluateCondition "" ctx = true) ∧
    (∀ (reg : Registry)
       (execN : CompositionSpec → Ctx → EngineState → Except PyErr Ctx × EngineState)
       (step : CompositionStep) (ctx : Ctx) (st : EngineState),
       (step.if_condition = Option.none ∨ step.if_condition = some "") →
       execOneStep reg execN step ctx st = execStepBody reg execN step ctx st) ∧
    (∀ (ctx : Ctx) (c l r : String) (lv rv : Value),
       splitFirst c "==" = some (l, r) →
       resolveValue (pyStrip l) ctx = .ok lv →
       resolveValue (pyStrip r) ctx = .ok rv →
       evaluateCondition c ctx = (pyStr lv == pyStr rv)) ∧
    (∀ (ctx : Ctx) (c l r lB rB : String) (e : PyErr) (lv rv : Value),
       splitFirst c "==" = some (l, r) →
       (resolveValue (pyStrip l) ctx = .error e ∨ resolveValue (pyStrip r) ctx = .error e) →
       splitFirst c "!=" = some (lB, rB) →
       resolveValue (pyStrip lB) ctx = .ok lv →
       resolveValue (pyStrip rB) ctx = .ok rv →
       evaluateCondition c ctx = (pyStr lv != pyStr rv)) ∧
    (∀ (ctx : Ctx) (c l r : String) (lv rv : Value),
       splitFirst c "==" = Option.none →
       splitFirst c "!=" = some (l, r) →
       resolveValue (pyStrip l) ctx = .ok lv →
       resolveValue (pyStrip r) ctx = .ok rv →
       evaluateCondition c ctx = (pyStr lv != pyStr rv)) ∧
    (∀ (ctx : Ctx) (c : String) (e : PyErr),
       c ≠ "" →
       splitFirst c "==" = Option.none →
       splitFirst c "!=" = Option.none →
       resolveValue c ctx = .error e →
       evaluateCondition c ctx = false) ∧
    (∀ (reg : Registry)
       (execN : CompositionSpec → Ctx → EngineState → Except PyErr Ctx × EngineState)
       (step : CompositionStep) (ctx : Ctx) (st : EngineState) (c : String),
       step.if_condition = some c →
       evaluateCondition c ctx = false →
       execOneStep reg execN step ctx st = (.ok ctx, st)) := by
  have hnonempty : ∀ (c : String) (ps : String × String),
      splitFirst c "==" = some ps ∨ splitFirst c "!=" = some ps → c ≠ "" := by
    intro c ps h hc
    subst hc
    rcases h with h | h <;> exact Option.noConfusion h
  refine ⟨?_, ?_, ?_, ?_, ?_, ?_, ?_⟩
  · intro ctx
    rfl
  · intro reg execN step ctx st h
    have ht : truthyOptStr step.if_condition = false := by
      rcases h with h | h <;> simp [h, truthyOptStr]
    unfold execOneStep
    exact if_neg fun hcon => Bool.noConfusion (ht ▸ hcon.1)
  · intro ctx c l r lv rv hsp hl hr
    have hne : c ≠ "" := hnonempty c (l, r) (Or.inl hsp)
    have hcmp : tryCompare c "==" ctx false = some (pyStr lv == pyStr rv) := by
      simp only [tryCompare, hsp, hl, hr, cond]
    simp only [evaluateCondition, if_neg hne, hcmp]
  · intro ctx c l r lB rB e lv rv hsp hfail hspB hlB hrB
    have hne : c ≠ "" := hnonempty c (l, r) (Or.inl hsp)
    have hcmp1 : tryCompare c "==" ctx false = Option.none := by
      rcases hfail with hf | hf
      · simp only [tryCompare, hsp, hf]
      · cases hL : resolveValue (pyStrip l) ctx with
        | ok lv2 => simp only [tryCompare, hsp, hL, hf]
        | error e2 => simp only [tryCompare, hsp, hL]
    have hcmp2 : tryCompare c "!=" ctx true = some (pyStr lv != pyStr rv) := by
      simp only [tryCompare, hspB, hlB, hrB, cond]
    simp only [evaluateCondition, if_neg hne, hcmp1, hcmp2]
  · intro ctx c l r lv rv hspEq hspNe hl hr
    have hne : c ≠ "" := hnonempty c (l, r) (Or.inr hspNe)
    have hcmp1 : tryCompare c "==" ctx false = Option.none := by
      simp only [tryCompare, hspEq]
    have hcmp2 : tryCompare c "!=" ctx true = some (pyStr lv != pyStr rv) := by
      simp only [tryCompare, hspNe, hl, hr, cond]
    simp only [evaluateCondition, if_neg hne, hcmp1, hcmp2]
  · intro ctx c e hne hspEq hspNe hres
    have hcmp1 : tryCompare c "==" ctx false = Option.none := by
      simp only [tryCompare, hspEq]
    have hcmp2 : tryCompare c "!=" ctx true = Option.none := by
      simp only [tryCompare, hspNe]
    simp only [evaluateCondition, if_neg hne, hcmp1, hcmp2, hres]
  · intro reg execN step ctx st c hc hfalse
    exact execOneStep_skip hc hfalse st

/-- Witness for C4: every clause at a concrete condition — equality and
inequality comparisons, the `==`-to-`!=` fall-through, an unresolvable
condition defaulting to false, and the skip of a concretely gated
step. -/
theorem condition_evaluation_total_witness :
    evaluateCondition "" [("a", Value.str "b")] = true ∧
    execOneStep regW execNoneW stepLoopW itemsCtxW {} =
      execStepBody regW execNoneW stepLoopW itemsCtxW {} ∧
    evaluateCondition "$a == b" [("a", Value.str "b")] =
      (pyStr (Value.str "b") == pyStr (Value.str "b")) ∧
    evaluateCondition "a == $x.y != b" [] =
      (pyStr (Value.str "a == $x.y") != pyStr (Value.str "b")) ∧
    evaluateCondition "$a != b" [("a", Value.str "b")] =
      (pyStr (Value.str "b") != pyStr (Value.str "b")) ∧
    evaluateCondition "$x.y" [] = false ∧
    execOneStep regW execNoneW
      { id := "gated", tool_id := "ptmpl", if_condition := some "$x.y" } [] {} =
      (.ok [], ({} : EngineState)) :=
  ⟨condition_evaluation_total.1 [("a", Value.str "b")],
   condition_evaluation_total.2.1 regW execNoneW stepLoopW itemsCtxW {} (Or.inl rfl),
   condition_evaluation_total.2.2.1 [("a", Value.str "b")] "$a == b" "$a " " b"
      (Value.str "b") (Value.str "b") rfl rfl rfl,
   condition_evaluation_total.2.2.2.1 [] "a == $x.y != b" "a " " $x.y != b"
      "a == $x.y " " b" (.valueError "Could not resolve step 'x' in context.")
      (Value.str "a == $x.y") (Value.str "b") rfl (Or.inr rfl) rfl rfl rfl,
   condition_evaluation_total.2.2.2.2.1 [("a", Value.str "b")] "$a != b" "$a " " b"
      (Value.str "b") (Value.str "b") rfl rfl rfl rfl,
   condition_evaluation_total.2.2.2.2.2.1 [] "$x.y"
      (.valueError "Could not resolve step 'x' in context.") (by decide) rfl rfl rfl,
   condition_evaluation_total.2.2.2.2.2.2 regW execNoneW
      { id := "gated", tool_id := "ptmpl", if_condition := some "$x.y" } [] {} "$x.y"
      rfl rfl⟩

/-- C5 counterexample: on the literal `"'x'"` (a single-quoted word
inside double quotes) the resolver returns `x` — `str.strip` removes
every surrounding quote of either kind — whereas stripping exactly one
surrounding layer would return `'x'`. -/
theorem literal_quote_stripping_counterexample :
    resolveValue "\"'x'\"" [] Value.none = .ok (Value.str "x") ∧
    stripOneLayerSpec "\"'x'\"" = "'x'" ∧
    ("x" : String) ≠ "'x'" :=
  ⟨rfl, rfl, by decide⟩

/-- C5 (amended): the resolution grammar as implemented — `$item`
yields the loop item when one is bound; dotless `$name` yields
`context[name]` or absence; `$step.field` yields the field (or absence)
when `step` maps to a dict and raises a `ResolutionError` otherwise;
case-insensitive `true`/`false` yield booleans; any other string is a
literal stripped of all leading/trailing double quotes and then all
leading/trailing single quotes (Python `str.strip`), not of exactly one
surrounding layer. -/
theorem variable_resolution_grammar :
    (∀ (ctx : Ctx) (item : Value), item.isNone = false →
       resolveValue "$item" ctx item = .ok item) ∧
    (∀ (value : String) (ctx : Ctx) (item : Value),
       strStartsWith value "$" = true →
       (value ≠ "$item" ∨ item.isNone = true) →
       splitFirst (strDrop value 1) "." = Option.none →
       resolveValue value ctx item = .ok ((getKey? ctx (strDrop value 1)).getD Value.none)) ∧
    (∀ (value s f : String) (ctx : Ctx) (item : Value),
       strStartsWith value "$" = true →
       (value ≠ "$item" ∨ item.isNone = true) →
       splitFirst (strDrop value 1) "." = some (s, f) →
       ((∀ d, getKey? ctx s = some (Value.dict d) →
           resolveValue value ctx item = .ok ((getKey? d f).getD Value.none)) ∧
        (∀ v, getKey? ctx s = some v → v.isDict = false →
           resolveValue value ctx item =
             .error (.valueError s!"Could not resolve step '{s}' in context.")) ∧
        (getKey? ctx s = Option.none →
           resolveValue value ctx item =
             .error (.valueError s!"Could not resolve step '{s}' in context.")))) ∧
    (∀ (value : String) (ctx : Ctx) (item : Value),
       strStartsWith value "$" = false →
       strToLower value = "true" →
       resolveValue value ctx item = .ok (Value.bool true)) ∧
    (∀ (value : String) (ctx : Ctx) (item : Value),
       strStartsWith value "$" = false →
       strToLower value = "false" →
       resolveValue value ctx item = .ok (Value.bool false)) ∧
    (∀ (value : String) (ctx : Ctx) (item : Value),
       strStartsWith value "$" = false →
       strToLower value ≠ "true" → strToLower value ≠ "false" →
       resolveValue value ctx item =
         .ok (Value.str (pyStripChar '\'' (pyStripChar '"' value)))) := by
  have hnotItem : ∀ (value : String) (item : Value),
      (value ≠ "$item" ∨ item.isNone = true) →
      (value = "$item" && !item.isNone) = false := by
    intro value item h
    rcases h with h | h
    · simp [h]
    · simp [h]
  refine ⟨?_, ?_, ?_, ?_, ?_, ?_⟩
  · intro ctx item h
    simp [resolveValue, h]
  · intro value ctx item hs hni hsp
    simp [resolveValue, hnotItem value item hni, hs, hsp]
  · intro value s f ctx item hs hni hsp
    refine ⟨?_, ?_, ?_⟩
    · intro d hd
      simp [resolveValue, hnotItem value item hni, hs, hsp, hd]
    · intro v hv hnd
      cases v with
      | dict d => simp [Value.isDict] at hnd
      | str a => simp [resolveValue, hnotItem value item hni, hs, hsp, hv]
      | bool b => simp [resolveValue, hnotItem value item hni, hs, hsp, hv]
      | int n => simp [resolveValue, hnotItem value item hni, hs, hsp, hv]
      | list xs => simp [resolveValue, hnotItem value item hni, hs, hsp, hv]
      | none => simp [resolveValue, hnotItem value item hni, hs, hsp, hv]
    · intro hv
      simp [resolveValue, hnotItem value item hni, hs, hsp, hv]
  · intro value ctx item hs ht
    have hni : value ≠ "$item" := by
      intro h
      subst h
      exact absurd hs (by decide)
    simp [resolveValue, hnotItem value item (Or.inl hni), hs, ht]
  · intro value ctx item hs ht
    have hni : value ≠ "$item" := by
      intro h
      subst h
      exact absurd hs (by decide)
    simp [resolveValue, hnotItem value item (Or.inl hni), hs, ht]
  · intro value ctx item hs ht hf
    have hni : value ≠ "$item" := by
      intro h
      subst h
      exact absurd hs (by decide)
    simp [resolveValue, hnotItem value item (Or.inl hni), hs, ht, hf]

/-- Witness for the amended C5: each grammar clause at a concrete
input. -/
theorem variable_resolution_grammar_witness :
    resolveValue "$item" [] (Value.int 3) = .ok (Value.int 3) ∧
    resolveValue "$root" [("root", Value.str "abc")] Value.none =
      .ok ((getKey? [("root", Value.str "abc")] (strDrop "$root" 1)).getD Value.none) ∧
    resolveValue "$find.files" [("find", Value.dict [("files", Value.int 5)])] Value.none =
      .ok ((getKey? [("files", Value.int 5)] "files").getD Value.none) ∧
    resolveValue "$find.files" [("find", Value.int 1)] Value.none =
      .error (.valueError "Could not resolve step 'find' in context.") ∧
    resolveValue "$find.files" [] Value.none =
      .error (.valueError "Could not resolve step 'find' in context.") ∧
    resolveValue "TRUE" [] Value.none = .ok (Value.bool true) ∧
    resolveValue "False" [] Value.none = .ok (Value.bool false) ∧
    resolveValue "'hello'" [] Value.none =
      .ok (Value.str (pyStripChar '\'' (pyStripChar '"' "'hello'"))) :=
  ⟨variable_resolution_grammar.1 [] (Value.int 3) rfl,
   variable_resolution_grammar.2.1 "$root" [("root", Value.str "abc")] Value.none
      rfl (Or.inl (by decide)) rfl,
   (variable_resolution_grammar.2.2.1 "$find.files" "find" "files"
      [("find", Value.dict [("files", Value.int 5)])] Value.none
      rfl (Or.inl (by decide)) rfl).1 [("files", Value.int 5)] rfl,
   (variable_resolution_grammar.2.2.1 "$find.files" "find" "files"
      [("find", Value.int 1)] Value.none
      rfl (Or.inl (by decide)) rfl).2.1 (Value.int 1) rfl rfl,
   (variable_resolution_grammar.2.2.1 "$find.files" "find" "files" [] Value.none
      rfl (Or.inl (by decide)) rfl).2.2 rfl,
   variable_resolution_grammar.2.2.2.1 "TRUE" [] Value.none rfl rfl,
   variable_resolution_grammar.2.2.2.2.1 "False" [] Value.none rfl rfl,
   variable_resolution_grammar.2.2.2.2.2 "'hello'" [] Value.none rfl (by decide) (by decide)⟩

/-- C6 counterexample: with input `a ↦ 1`, a step whose id is `a`
overwrites the input's entry, and the executed step `s2`, which
declares no outputs, leaves no context entry at all — two executed
steps, one surviving entry, the original input value gone. -/
theorem final_context_superset_counterexample :
    (execute regW 1 wfClobberW [("a", Value.int 1)] {}).1 =
      .ok [("a", Value.dict [("res", Value.dict [])])] ∧
    getKey? [("a", Value.dict [("res", Value.dict [])])] "a" ≠ some (Value.int 1) ∧
    getKey? [("a", Value.dict [("res", Value.dict [])])] "s2" = Option.none ∧
    (execute regW 1 wfClobberW [("a", Value.int 1)] {}).2.invocations.length = 2 :=
  ⟨rfl, by simp [getKey?], rfl, rfl⟩

/-- C6 (amended): a normally completed execution returns a context
that agrees with the initial inputs on every key that is not the id of
one of the workflow's steps; every key at which it differs is the id of
a step with at least one declared output and holds a one-field mapping
under that step's first declared output name; a step skipped by its
condition writes nothing.  (An input key equal to an executed step's id
is overwritten, and an executed step with no declared outputs
contributes no entry.) -/
theorem final_context_structure :
    (∀ (reg : Registry)
       (execN : CompositionSpec → Ctx → EngineState → Except PyErr Ctx × EngineState)
       (steps : List CompositionStep) (ctx ctxE : Ctx) (st stE : EngineState),
       execStepsAux reg execN steps ctx st = (.ok ctxE, stE) →
       ∀ k, k ∉ steps.map (fun s => s.id) → getKey? ctxE k = getKey? ctx k) ∧
    (∀ (reg : Registry)
       (execN : CompositionSpec → Ctx → EngineState → Except PyErr Ctx × EngineState)
       (steps : List CompositionStep) (ctx ctxE : Ctx) (st stE : EngineState),
       execStepsAux reg execN steps ctx st = (.ok ctxE, stE) →
       ∀ k, getKey? ctxE k = getKey? ctx k ∨
         ∃ step, step ∈ steps ∧ step.id = k ∧
           ∃ out outT outRest v, step.outputs = (out, outT) :: outRest ∧
             getKey? ctxE k = some (Value.dict [(out, v)])) ∧
    (∀ (reg : Registry)
       (execN : CompositionSpec → Ctx → EngineState → Except PyErr Ctx × EngineState)
       (step : CompositionStep) (ctx : Ctx) (st : EngineState) (c : String),
       step.if_condition = some c → evaluateCondition c ctx = false →
       execOneStep reg execN step ctx st = (.ok ctx, st)) ∧
    (∀ (fuel : Nat) (reg : Registry) (wf : CompositionSpec)
       (inputs ctxE : Ctx) (st stE : EngineState),
       execute reg (fuel + 1) wf inputs st = (.ok ctxE, stE) →
       ∀ k, k ∉ wf.steps.map (fun s => s.id) → getKey? ctxE k = getKey? inputs k) := by
  refine ⟨?_, ?_, ?_, ?_⟩
  · intro reg execN steps ctx ctxE st stE h k hk
    exact execSteps_preserves h k hk
  · intro reg execN steps ctx ctxE st stE h k
    exact execSteps_changed h k
  · intro reg execN step ctx st c hc hfalse
    exact execOneStep_skip hc hfalse st
  · intro fuel reg wf inputs ctxE st stE h k hk
    exact execSteps_preserves h k hk

/-- Witness for the amended C6 at a concrete one-step run and a
concretely skipped step. -/
theorem final_context_structure_witness :
    getKey? ctxOkW "other" = getKey? [("keep", Value.int 9)] "other" ∧
    (getKey? ctxOkW "s1" = getKey? [("keep", Value.int 9)] "s1" ∨
      ∃ step, step ∈ wfOkW.steps ∧ step.id = "s1" ∧
        ∃ out outT outRest v, step.outputs = (out, outT) :: outRest ∧
          getKey? ctxOkW "s1" = some (Value.dict [(out, v)])) ∧
    execOneStep regW execNoneW
      { id := "g6", tool_id := "itmpl", if_condition := some "$x.y" }
      [("keep", Value.int 9)] {} = (.ok [("keep", Value.int 9)], ({} : EngineState)) ∧
    getKey? ctxOkW "keep" = getKey? [("keep", Value.int 9)] "keep" :=
  ⟨final_context_structure.1 regW execNoneW wfOkW.steps [("keep", Value.int 9)] ctxOkW
      {} stOkW rfl "other" (by decide),
   final_context_structure.2.1 regW execNoneW wfOkW.steps [("keep", Value.int 9)] ctxOkW
      {} stOkW rfl "s1",
   final_context_structure.2.2.1 regW execNoneW
      { id := "g6", tool_id := "itmpl", if_condition := some "$x.y" }
      [("keep", Value.int 9)] {} "$x.y" rfl rfl,
   final_context_structure.2.2.2 0 regW wfOkW [("keep", Value.int 9)] ctxOkW {} stOkW
      rfl "keep" (by decide)⟩

/-- C8: `register` then `load` returns metadata equal in every field to
what was registered (dict-valued fields compared as Python dicts, i.e.
pointwise by key — the sorted dump reorders their entries);
`load` of an unregistered tool id returns absence rather than raising;
and `load` substitutes defaults for every missing optional field. -/
theorem register_load_roundtrip :
    (∀ (m : ToolMetadata) (store : Store),
       ∃ mL, loadStore (registerStore store m) m.tool_id = .ok (some mL) ∧
         mL.tool_id = m.tool_id ∧ mL.version = m.version ∧
         mL.created_at = m.created_at ∧ mL.source_path = m.source_path ∧
         mL.tests_path = m.tests_path ∧ mL.test_results_path = m.test_results_path ∧
         (∀ k, getKey? mL.dependencies k = getKey? m.dependencies k) ∧
         mL.security_policy = m.security_policy ∧
         mL.capability_profile = m.capability_profile ∧
         mL.model = m.model ∧ mL.template_id = m.template_id ∧
         mL.spec.name = m.spec.name ∧ mL.spec.signature = m.spec.signature ∧
         mL.spec.docstring = m.spec.docstring ∧
         (∀ k, getKey? mL.spec.inputs k = getKey? m.spec.inputs k) ∧
         (∀ k, getKey? mL.spec.outputs k = getKey? m.spec.outputs k) ∧
         mL.spec.failure_modes = m.spec.failure_modes ∧
         mL.spec.deterministic = m.spec.deterministic ∧
         mL.spec.imports = m.spec.imports ∧
         mL.spec.semantic_tags = m.spec.semantic_tags) ∧
    (∀ (store : Store) (toolId : String), getKey? store toolId = Option.none →
       loadStore store toolId = .ok Option.none) ∧
    decodeMeta minimalMetaJson = .ok minimalMetaW := by
  refine ⟨?_, ?_, ?_⟩
  · intro m store
    refine ⟨{ m with
              dependencies := sortByKey m.dependencies
              spec := { m.spec with
                        inputs := sortByKey m.spec.inputs
                        outputs := sortByKey m.spec.outputs } }, ?_,
      rfl, rfl, rfl, rfl, rfl, rfl, (fun k => getKey_sortByKey _ k), rfl, rfl, rfl, rfl,
      rfl, rfl, rfl, (fun k => getKey_sortByKey _ k), (fun k => getKey_sortByKey _ k),
      rfl, rfl, rfl, rfl⟩
    simp only [loadStore, registerStore, getKey_setKey_same, decodeMeta_encodeMeta,
      Except.map]
  · intro store toolId h
    simp only [loadStore, h]
  · rfl

/-- Witness for C8: loading a never-registered id from the empty
registry root yields absence, not an exception. -/
theorem register_load_roundtrip_witness :
    loadStore [] "ghost" = .ok Option.none :=
  register_load_roundtrip.2.1 [] "ghost" rfl

/-- C9: the sandbox argument vector is exactly the namespace-isolation
segment, then the resource-limit segment whose memory cap is
`memory_limit_mb` × 1024² bytes and whose CPU cap is in whole seconds,
then the caller's command appended last, unchanged; in particular
`memory_limit_mb = 512` and `cpu_time_limit_sec = 10` yield
`--as=536870912` and `--cpu=10`. -/
theorem sandbox_command_segments :
    (∀ (p : SandboxPolicy) (workdir : String) (command : List String),
       buildSandboxCommand p workdir command =
         bwrapSegment p workdir ++ prlimitSegment p ++ command ∧
       ("--as=" ++ toString (p.memory_limit_mb * 1024 * 1024)) ∈ prlimitSegment p ∧
       ("--cpu=" ++ toString p.cpu_time_limit_sec) ∈ prlimitSegment p ∧
       List.IsSuffix command (buildSandboxCommand p workdir command) ∧
       (buildSandboxCommand p workdir command).head? = some "bwrap" ∧
       "prlimit" ∈ buildSandboxCommand p workdir command) ∧
    (∀ (workdir : String) (command : List String),
       "--as=536870912" ∈
         buildSandboxCommand { memory_limit_mb := 512, cpu_time_limit_sec := 10 }
           workdir command ∧
       "--cpu=10" ∈
         buildSandboxCommand { memory_limit_mb := 512, cpu_time_limit_sec := 10 }
           workdir command) := by
  constructor
  · intro p workdir command
    refine ⟨rfl, ?_, ?_, ?_, ?_, ?_⟩
    · simp [prlimitSegment]
    · simp [prlimitSegment]
    · exact ⟨bwrapSegment p workdir ++ prlimitSegment p, rfl⟩
    · simp [buildSandboxCommand, bwrapSegment]
    · simp [buildSandboxCommand, prlimitSegment]
  · intro workdir command
    constructor
    · simp only [buildSandboxCommand]
      exact List.mem_append.mpr (Or.inl (List.mem_append.mpr (Or.inr (by decide))))
    · simp only [buildSandboxCommand]
      exact List.mem_append.mpr (Or.inl (List.mem_append.mpr (Or.inr (by decide))))

end Machinist
